import Mathlib

/-!
Shallow embedding of the win-cli-mcp-server command validation and secure
execution engine (src/index.ts), together with theorems settling the
specification claims about it.

Conventions of the embedding:
* Machine strings are Lean `String`s; sizes are `Nat` (JS string lengths).
* Exceptions are `Except McpError`; the MCP error codes are an inductive.
* The asynchronous local execution (stdout/stderr data events, the close
  event, the spawn-error event and the timeout timer) is embedded as a
  deterministic step function over an explicit `RunState`, driven by an
  arbitrary list of events; promise settlement (resolve/reject, first one
  wins) is an `Option Settled` field that is only written when `none`.
* Wall-clock timestamps are abstracted as strings supplied in the run
  context; `path.join` is modelled with a slash separator and
  `path.resolve` as the identity on the supplied absolute path.
* JS float division in the megabyte display of truncation notices is
  modelled as `Nat` division (no claim depends on that numeral).
-/

namespace WinCli

/-- Character code 39, a single-quote character (kept out of literals). -/
def squoteChar : Char := Char.ofNat 39

/-- Character code 34, a double-quote character. -/
def dquoteChar : Char := Char.ofNat 34

/-- A single-quote as a one-character string. -/
def sq : String := String.mk [squoteChar]

/-- MCP protocol error codes used by the server. -/
inductive ErrorCode where
  | InvalidRequest
  | InvalidParams
  | InternalError
  | MethodNotFound
deriving DecidableEq, Repr

/-- An MCP error: a code together with a human-readable message. -/
structure McpError where
  code : ErrorCode
  message : String
deriving DecidableEq, Repr

/-- The three shell profiles of the server configuration. -/
inductive ShellName where
  | powershell
  | cmd
  | gitbash
deriving DecidableEq, Repr

/-- Per-shell configuration (types/config.ts `ShellConfig`); the
operator-restriction rules are modelled as a list of blocked operator
substrings. -/
structure ShellConfig where
  command : String
  args : List String
  enabled : Bool
  blockedOperators : List String
deriving DecidableEq, Repr

/-- The `security` section of the server configuration. -/
structure SecurityConfig where
  maxCommandLength : Nat
  blockedCommands : List String
  blockedArguments : List String
  allowedPaths : List String
  restrictWorkingDirectory : Bool
  logCommands : Bool
  maxHistorySize : Nat
  commandTimeout : Nat
  enableInjectionProtection : Bool
  maxOutputSize : Nat
  enableOutputFiles : Bool
  outputDirectory : Option String
  outputFileRetentionHours : Nat
deriving DecidableEq, Repr

/-- Configuration of a single SSH connection. -/
structure SSHConnectionConfig where
  host : String
  port : Nat
  username : String
  password : String
deriving DecidableEq, Repr

/-- The `ssh` section of the server configuration. -/
structure SshSection where
  enabled : Bool
  connections : List (String × SSHConnectionConfig)
deriving DecidableEq, Repr

/-- The whole server configuration. -/
structure ServerConfig where
  security : SecurityConfig
  shells : ShellName → ShellConfig
  ssh : SshSection

/-- One entry of the command history (types/config.ts
`CommandHistoryEntry`). -/
structure CommandHistoryEntry where
  command : String
  output : String
  timestamp : String
  exitCode : Int
  connectionId : Option String := none
deriving DecidableEq, Repr

/-- Does `pat` occur at the head of `cs`? -/
def charsHasPre : List Char → List Char → Bool
  | [], _ => true
  | _ :: _, [] => false
  | p :: ps, t :: ts => p = t && charsHasPre ps ts

/-- Does `pat` occur anywhere inside `cs` (contiguously)? -/
def charsHasSub (pat : List Char) : List Char → Bool
  | [] => charsHasPre pat []
  | t :: ts => charsHasPre pat (t :: ts) || charsHasSub pat ts

/-- Does `pat` occur at the end of `cs`? -/
def charsHasSuf (pat cs : List Char) : Bool :=
  charsHasPre pat.reverse cs.reverse

/-- Modelled from the spec: the quote-state scanner shared by parsing and
operator validation (utils/validation.ts is not under src/).  Removes every
character that lies inside a single- or double-quoted region, keeping the
characters outside quotes. -/
def stripQuotedChars : Option Char → List Char → List Char
  | _, [] => []
  | some q, c :: cs =>
      if c = q then stripQuotedChars none cs else stripQuotedChars (some q) cs
  | none, c :: cs =>
      if c = squoteChar || c = dquoteChar then stripQuotedChars (some c) cs
      else c :: stripQuotedChars none cs

/-- Modelled from the spec: `validateShellOperators` (utils/validation.ts is
not under src/) scans the raw command outside quoted regions for a
disallowed shell operator of the given shell profile; `true` means a
violation was found. -/
def shellOperatorViolation (command : String) (sc : ShellConfig) : Bool :=
  sc.blockedOperators.any
    (fun op => charsHasSub op.data (stripQuotedChars none command.data))

/-- A parsed command line: executable token and argument tokens. -/
structure ParsedCommand where
  command : String
  args : List String
deriving DecidableEq, Repr

/-- Quote-aware tokenizer kernel: remaining characters, current quote state,
reversed accumulator of the current token. -/
def tokenizeCmd : List Char → Option Char → List Char → List String
  | [], _, acc => if acc.isEmpty then [] else [String.mk acc.reverse]
  | c :: cs, some q, acc =>
      if c = q then tokenizeCmd cs none acc else tokenizeCmd cs (some q) (c :: acc)
  | c :: cs, none, acc =>
      if c = squoteChar || c = dquoteChar then tokenizeCmd cs (some c) acc
      else if c = ' ' then
        if acc.isEmpty then tokenizeCmd cs none []
        else String.mk acc.reverse :: tokenizeCmd cs none []
      else tokenizeCmd cs none (c :: acc)

/-- Modelled from the spec: `parseCommand` (utils/validation.ts is not under
src/) tokenizes a raw command line respecting quoting; the first token is
the executable, the rest are the arguments. -/
def parseCommand (raw : String) : ParsedCommand :=
  match tokenizeCmd raw.data none [] with
  | [] => ⟨"", []⟩
  | c :: rest => ⟨c, rest⟩

/-- The characters of the last path segment of `cs` (segments split on both
slash and backslash). -/
def lastSegmentChars : List Char → List Char → List Char
  | [], acc => acc.reverse
  | c :: cs, acc =>
      if c = Char.ofNat 47 || c = Char.ofNat 92 then lastSegmentChars cs []
      else lastSegmentChars cs (c :: acc)

/-- Last path segment of a string. -/
def lastSegment (s : String) : String := String.mk (lastSegmentChars s.data [])

/-- The executable suffixes recognized by the validator. -/
def knownExeSuffixes : List String := [".exe", ".cmd", ".bat"]

/-- Remove one known executable suffix (case-insensitive) if present. -/
def stripExeSuffix (s : String) : String :=
  let low := s.data.map Char.toLower
  match knownExeSuffixes.find? (fun suf => charsHasSuf suf.data low) with
  | some suf => String.mk (s.data.take (s.data.length - suf.data.length))
  | none => s

/-- Modelled from the spec: `extractCommandName` (utils/validation.ts is not
under src/) derives a display name by taking the last path segment and
removing a known executable suffix. -/
def extractCommandName (s : String) : String := stripExeSuffix (lastSegment s)

/-- Lower-case a string character by character. -/
def lowerStr (s : String) : String := String.mk (s.data.map Char.toLower)

/-- Modelled from the spec: `isCommandBlocked` (utils/validation.ts is not
under src/) compares the executable, case-insensitively and with any known
executable extension stripped (also for path-qualified forms, via the
basename), against the blocked set. -/
def isCommandBlocked (executable : String) (blocked : List String) : Bool :=
  let name := lowerStr (stripExeSuffix (lastSegment executable))
  blocked.any (fun b => lowerStr b == name)

/-- Modelled from the spec: `isArgumentBlocked` (utils/validation.ts is not
under src/) tests every argument token against each configured blocked
pattern; patterns are modelled as literal substrings (the regular-expression
form is abstracted to substring matching). -/
def isArgumentBlocked (args : List String) (patterns : List String) : Bool :=
  args.any (fun a => patterns.any (fun p => charsHasSub p.data a.data))

/-- Message thrown on an operator violation (text modelled from the spec;
the throwing helper is not under src/). -/
def operatorErrMsg : String :=
  "Command contains a disallowed operator for this shell"

/-- Message of a blocked-executable rejection (index.ts:92). -/
def blockedCmdMsg (executable : String) : String :=
  "Command is blocked: \"" ++ extractCommandName executable ++ "\""

/-- Message of a blocked-argument rejection (index.ts:100). -/
def blockedArgMsg : String :=
  "One or more arguments are blocked. Check configuration for blocked patterns."

/-- Message of a length-overflow rejection (index.ts:108). -/
def lengthErrMsg (maxLen : Nat) : String :=
  "Command exceeds maximum length of " ++ toString maxLen

/-- `CLIServer.validateCommand` (index.ts:76-111): operator validation when
injection protection is enabled, then blocked executable, then blocked
arguments, then command length; each failing check throws an
invalid-request `McpError`. -/
def validateCommand (cfg : ServerConfig) (shell : ShellName) (command : String) :
    Except McpError Unit := do
  if cfg.security.enableInjectionProtection then
    if shellOperatorViolation command (cfg.shells shell) then
      throw ⟨.InvalidRequest, operatorErrMsg⟩
  let parsed := parseCommand command
  if isCommandBlocked parsed.command cfg.security.blockedCommands then
    throw ⟨.InvalidRequest, blockedCmdMsg parsed.command⟩
  if isArgumentBlocked parsed.args cfg.security.blockedArguments then
    throw ⟨.InvalidRequest, blockedArgMsg⟩
  if command.length > cfg.security.maxCommandLength then
    throw ⟨.InvalidRequest, lengthErrMsg cfg.security.maxCommandLength⟩

/-! ## The local execution engine (index.ts:319-529) -/

/-- The events that can reach a spawned shell process: data on either
stream, the close event (with a nullable exit code), the process-error
event, and the firing of the timeout timer. -/
inductive PEvent where
  | stdoutData (chunk : String)
  | stderrData (chunk : String)
  | closed (code : Option Int)
  | errored (msg : String)
  | timeoutFired
deriving DecidableEq, Repr

/-- How a promise executor settled: a resolve (result text, isError flag,
exit code used in metadata) or a reject with an error. -/
inductive Settled where
  | resolved (text : String) (isError : Bool) (exitCode : Int)
  | rejected (e : McpError)
deriving DecidableEq, Repr

/-- The per-invocation context of a local run: configuration, shell,
validated command, resolved working directory, abstracted timestamps and
the temporary directory of the host. -/
structure RunCtx where
  cfg : ServerConfig
  shell : ShellName
  command : String
  workingDir : String
  ts : String
  fileTs : String
  tmpdir : String

/-- Mutable state of one local execution: the closure variables of the
promise executor (index.ts:342-346), the spill file (path and modelled
contents), the shared command history, the promise settlement and the
timer bookkeeping. -/
structure RunState where
  output : String
  error : String
  outputSize : Nat
  truncated : Bool
  outputFilePath : Option String
  fileContent : String
  history : List CommandHistoryEntry
  settled : Option Settled
  timeoutCleared : Bool
  timerFired : Bool
deriving DecidableEq, Repr

/-- Initial run state over a given starting history. -/
def initRunState (h : List CommandHistoryEntry) : RunState :=
  ⟨"", "", 0, false, none, "", h, none, false, false⟩

/-- The megabyte figure printed in truncation notices
(`maxOutputSize / (1024 * 1024)`, index.ts:372 etc.; JS float division
modelled as Nat division). -/
def mbLimit (cfg : ServerConfig) : Nat := cfg.security.maxOutputSize / (1024 * 1024)

/-- First line of the in-memory spill notice (index.ts:372). -/
def spillNoticeHead (cfg : ServerConfig) : String :=
  "Output exceeded " ++ toString (mbLimit cfg) ++ "MB limit.\n"

/-- The name of the spill file (`saveToFile`, index.ts:349-358): present only
when an output directory is configured; `path.join` modelled with a slash. -/
def spillFileName (cfg : ServerConfig) (fileTs : String) : Option String :=
  match cfg.security.outputDirectory with
  | none => none
  | some dir => some (dir ++ "/output-" ++ fileTs ++ ".txt")

/-- Truncation marker appended to stdout when spilling is disabled
(index.ts:384). -/
def stdoutTruncMarker : String := "\n... Output truncated due to size limit ..."

/-- Truncation marker appended to stderr (index.ts:395). -/
def stderrTruncMarker : String := "\n... Error output truncated due to size limit ..."

/-- The stdout data handler (index.ts:360-387). -/
def stdoutStep (ctx : RunCtx) (st : RunState) (chunk : String) : RunState :=
  if st.outputSize + chunk.length ≤ ctx.cfg.security.maxOutputSize then
    { st with output := st.output ++ chunk, outputSize := st.outputSize + chunk.length }
  else if ctx.cfg.security.enableOutputFiles then
    if !st.truncated then
      let full := st.output ++ chunk
      match spillFileName ctx.cfg ctx.fileTs with
      | some fp =>
          { st with
            output := spillNoticeHead ctx.cfg ++ "Full output saved to: " ++ fp ++ "\n",
            outputFilePath := some fp, fileContent := full, truncated := true }
      | none =>
          { st with output := spillNoticeHead ctx.cfg, truncated := true }
    else
      match st.outputFilePath with
      | some _ => { st with fileContent := st.fileContent ++ chunk }
      | none => st
  else if !st.truncated then
    { st with output := st.output ++ stdoutTruncMarker, truncated := true }
  else st

/-- The stderr data handler (index.ts:389-398); note that it shares both
`outputSize` and `truncated` with the stdout handler. -/
def stderrStep (ctx : RunCtx) (st : RunState) (chunk : String) : RunState :=
  if st.outputSize + chunk.length ≤ ctx.cfg.security.maxOutputSize then
    { st with error := st.error ++ chunk, outputSize := st.outputSize + chunk.length }
  else if !st.truncated then
    { st with error := st.error ++ stderrTruncMarker, truncated := true }
  else st

/-- Exit-code text as produced by a JS template literal on a nullable
number. -/
def optCodeStr : Option Int → String
  | none => "null"
  | some n => toString n

/-- The truncation note appended to the close result message
(index.ts:405-416 and 430-441; identical text in both branches). -/
def truncNote (cfg : ServerConfig) (tmpdir : String) (truncated : Bool)
    (ofp : Option String) : String :=
  if truncated then
    match ofp with
    | some fp =>
        "\n\nOutput exceeded " ++ toString (mbLimit cfg) ++
          "MB limit and was saved to:\n" ++ fp
    | none =>
        "\n\nOutput exceeded " ++ toString (mbLimit cfg) ++
          "MB limit and was truncated.\nTo save large outputs to files, enable " ++
          sq ++ "enableOutputFiles" ++ sq ++ " in your config.json" ++
          (match cfg.security.outputDirectory with
           | some dir => "\nOutputs will be saved to: " ++ dir
           | none => "\nOutputs will be saved to: " ++ tmpdir ++ "/win-cli-mcp-output")
  else ""

/-- The result message built by the close handler (index.ts:400-442). -/
def closeResultMessage (cfg : ServerConfig) (tmpdir : String)
    (output error : String) (truncated : Bool) (ofp : Option String)
    (code : Option Int) : String :=
  if code = some 0 then
    (if output = "" then "Command completed successfully (no output)" else output) ++
      truncNote cfg tmpdir truncated ofp
  else
    "Command failed with exit code " ++ optCodeStr code ++ "\n" ++
      (if error ≠ "" then "Error output:\n" ++ error ++ "\n" else "") ++
      (if output ≠ "" then "Standard output:\n" ++ output else "") ++
      (if error = "" ∧ output = "" then "No error message or output was provided" else "") ++
      truncNote cfg tmpdir truncated ofp

/-- JS `array.slice(-n)`: the last `n` elements, except that `slice(-0)` is
the whole array. -/
def sliceLast (n : Nat) (l : List α) : List α :=
  if n = 0 then l else l.drop (l.length - n)

/-- The history append-with-trim used by the close handler
(index.ts:445-457) and the ssh success path (index.ts:594-606). -/
def pushTrim (maxSize : Nat) (h : List CommandHistoryEntry)
    (e : CommandHistoryEntry) : List CommandHistoryEntry :=
  let h2 := h ++ [e]
  if h2.length > maxSize then sliceLast maxSize h2 else h2

/-- The close handler (index.ts:400-491) combined with the second close
listener that cancels the timer (index.ts:528): build the result message,
append to history with trim when logging is enabled, resolve the promise
if it is not yet settled, clear the timeout. -/
def closeStep (ctx : RunCtx) (st : RunState) (code : Option Int) : RunState :=
  let msg := closeResultMessage ctx.cfg ctx.tmpdir st.output st.error
      st.truncated st.outputFilePath code
  let h :=
    if ctx.cfg.security.logCommands then
      pushTrim ctx.cfg.security.maxHistorySize st.history
        ⟨ctx.command, msg, ctx.ts, code.getD (-1), none⟩
    else st.history
  let s :=
    match st.settled with
    | some s => some s
    | none => some (.resolved msg (if code = some 0 then false else true) (code.getD (-1)))
  { st with history := h, settled := s, timeoutCleared := true }

/-- The process-error handler (index.ts:494-508): append to history without
trimming, reject the promise if not yet settled. -/
def errorStep (ctx : RunCtx) (st : RunState) (msg : String) : RunState :=
  let emsg := "Shell process error: " ++ msg
  let h :=
    if ctx.cfg.security.logCommands then
      st.history ++ [⟨ctx.command, emsg, ctx.ts, -1, none⟩]
    else st.history
  let s :=
    match st.settled with
    | some s => some s
    | none => some (.rejected ⟨.InternalError, emsg⟩)
  { st with history := h, settled := s }

/-- The timeout message (index.ts:513). -/
def timeoutMsg (cfg : ServerConfig) : String :=
  "Command execution timed out after " ++ toString cfg.security.commandTimeout ++
    " seconds. Consult the server admin for configuration changes (config.json - commandTimeout)."

/-- The timeout-timer callback (index.ts:511-526): a cleared or already-fired
timer never runs; otherwise kill the process (abstracted: a later `closed`
event models the dying process), append a timeout entry to history without
trimming, and reject the promise if not yet settled. -/
def timeoutStep (ctx : RunCtx) (st : RunState) : RunState :=
  if st.timeoutCleared || st.timerFired then st
  else
    let msg := timeoutMsg ctx.cfg
    let h :=
      if ctx.cfg.security.logCommands then
        st.history ++ [⟨ctx.command, msg, ctx.ts, -1, none⟩]
      else st.history
    let s :=
      match st.settled with
      | some s => some s
      | none => some (.rejected ⟨.InternalError, msg⟩)
    { st with history := h, settled := s, timerFired := true }

/-- One event step of a running local execution. -/
def pstep (ctx : RunCtx) (st : RunState) : PEvent → RunState
  | .stdoutData c => stdoutStep ctx st c
  | .stderrData c => stderrStep ctx st c
  | .closed code => closeStep ctx st code
  | .errored m => errorStep ctx st m
  | .timeoutFired => timeoutStep ctx st

/-- Run a local execution over a list of events. -/
def runEvents (ctx : RunCtx) (st : RunState) (es : List PEvent) : RunState :=
  es.foldl (pstep ctx) st

/-! ## The tool handlers (index.ts:282-673) -/

/-- `path.resolve(workingDir)` defaulting to `process.cwd()`
(index.ts:298-300), with resolution abstracted as the identity on the
supplied absolute path. -/
def resolveWorkingDir (wd : Option String) (cwd : String) : String := wd.getD cwd

/-- The working-directory restriction (index.ts:305-316): allowed when the
restriction is off or some allowed path is a leading part of the resolved
directory. -/
def workingDirAllowed (cfg : ServerConfig) (wd : String) : Bool :=
  !cfg.security.restrictWorkingDirectory ||
    cfg.security.allowedPaths.any (fun p => charsHasPre p.data wd.data)

/-- Message of a working-directory rejection (index.ts:313). -/
def wdErrMsg (wd : String) : String :=
  "Working directory (" ++ wd ++
    ") outside allowed paths. Consult the server admin for configuration changes (config.json - restrictWorkingDirectory, allowedPaths)."

/-- Observable outcome of one `execute_command` invocation: an error thrown
before the process was spawned (if any), the number of spawn calls made,
and the state of the run after the supplied events. -/
structure ExecOutcome where
  errorBeforeSpawn : Option McpError
  spawnCount : Nat
  state : RunState
deriving Repr

/-- The `execute_command` handler (index.ts:285-530) after argument
parsing: validate, resolve and check the working directory, then spawn and
process the given stream of events.  The zod enabled-shell enum check is
part of argument parsing and is outside this model. -/
def executeCommandTool (cfg : ServerConfig) (shell : ShellName) (command : String)
    (wd : Option String) (cwd ts fileTs tmpdir : String)
    (history0 : List CommandHistoryEntry) (events : List PEvent) : ExecOutcome :=
  match validateCommand cfg shell command with
  | .error e => ⟨some e, 0, initRunState history0⟩
  | .ok _ =>
    let w := resolveWorkingDir wd cwd
    if !workingDirAllowed cfg w then
      ⟨some ⟨.InvalidRequest, wdErrMsg w⟩, 0, initRunState history0⟩
    else
      let ctx : RunCtx := ⟨cfg, shell, command, w, ts, fileTs, tmpdir⟩
      ⟨none, 1, runEvents ctx (initRunState history0) events⟩

/-- Behavior of the remote side of one `ssh_execute` call: the connection
attempt fails, the command runs to an exit code with output, or the remote
execution throws. -/
inductive RemoteBehavior where
  | connectFail (msg : String)
  | runResult (output : String) (exitCode : Int)
  | runFail (msg : String)
deriving DecidableEq, Repr

instance instDecEqExcept {ε α : Type} [DecidableEq ε] [DecidableEq α] :
    DecidableEq (Except ε α) := fun a b =>
  match a, b with
  | .error e, .error f =>
      if h : e = f then .isTrue (by rw [h]) else .isFalse (by intro hc; cases hc; exact h rfl)
  | .error _, .ok _ => .isFalse (by intro hc; cases hc)
  | .ok _, .error _ => .isFalse (by intro hc; cases hc)
  | .ok x, .ok y =>
      if h : x = y then .isTrue (by rw [h]) else .isFalse (by intro hc; cases hc; exact h rfl)

/-- Observable outcome of one `ssh_execute` invocation: the result (display
text and exit code on success), the history after the call, and whether the
session pool was touched (`getConnection` reached). -/
structure SshOutcome where
  result : Except McpError (String × Int)
  history : List CommandHistoryEntry
  sessionTouched : Bool
deriving DecidableEq, Repr

/-- Connection lookup (index.ts:578). -/
def lookupConn (cfg : ServerConfig) (id : String) : Option SSHConnectionConfig :=
  (cfg.ssh.connections.find? (fun p => p.fst == id)).map Prod.snd

/-- The `ssh_execute` handler (index.ts:565-635): disabled-feature and
unknown-id rejections, then a try block that validates the command against
the `cmd` shell profile, obtains the pooled connection and executes; any
error thrown inside the try block (a policy violation included) is caught,
appended to history without trimming when logging is enabled, and re-thrown
as an internal error with an `SSH error:` prefix. -/
def sshExecuteTool (cfg : ServerConfig) (connectionId command : String)
    (ts : String) (history0 : List CommandHistoryEntry)
    (remote : RemoteBehavior) : SshOutcome :=
  if !cfg.ssh.enabled then
    ⟨.error ⟨.InvalidRequest, "SSH support is disabled in configuration"⟩, history0, false⟩
  else
    match lookupConn cfg connectionId with
    | none =>
        ⟨.error ⟨.InvalidRequest, "Unknown SSH connection ID: " ++ connectionId⟩,
          history0, false⟩
    | some _ =>
      match validateCommand cfg .cmd command with
      | .error e =>
        let emsg := "SSH error: " ++ e.message
        let h :=
          if cfg.security.logCommands then
            history0 ++ [⟨command, emsg, ts, -1, some connectionId⟩]
          else history0
        ⟨.error ⟨.InternalError, emsg⟩, h, false⟩
      | .ok _ =>
        match remote with
        | .connectFail m =>
          let emsg := "SSH error: " ++ m
          let h :=
            if cfg.security.logCommands then
              history0 ++ [⟨command, emsg, ts, -1, some connectionId⟩]
            else history0
          ⟨.error ⟨.InternalError, emsg⟩, h, true⟩
        | .runFail m =>
          let emsg := "SSH error: " ++ m
          let h :=
            if cfg.security.logCommands then
              history0 ++ [⟨command, emsg, ts, -1, some connectionId⟩]
            else history0
          ⟨.error ⟨.InternalError, emsg⟩, h, true⟩
        | .runResult out code =>
          let h :=
            if cfg.security.logCommands then
              pushTrim cfg.security.maxHistorySize history0
                ⟨command, out, ts, code, some connectionId⟩
            else history0
          ⟨.ok (if out = "" then "Command completed successfully (no output)" else out, code),
            h, true⟩

/-- Observable outcome of one `ssh_disconnect` invocation. -/
structure DisconnectOutcome where
  result : Except McpError String
  poolTouched : Bool
deriving DecidableEq, Repr

/-- The `ssh_disconnect` handler (index.ts:637-656): rejects when SSH is
disabled before touching the pool, otherwise closes the connection and
confirms. -/
def sshDisconnectTool (cfg : ServerConfig) (connectionId : String) : DisconnectOutcome :=
  if !cfg.ssh.enabled then
    ⟨.error ⟨.InvalidRequest, "SSH support is disabled in configuration"⟩, false⟩
  else
    ⟨.ok ("Disconnected from " ++ connectionId), true⟩

/-- Reply of `get_command_history`: the disabled notice or the entry list. -/
inductive HistoryReply where
  | disabled (msg : String)
  | entries (l : List CommandHistoryEntry)
deriving DecidableEq, Repr

/-- The disabled-history notice (index.ts:537). -/
def historyDisabledMsg : String :=
  "Command history is disabled in configuration. Consult the server admin for configuration changes (config.json - logCommands)."

/-- Per-entry preview truncation on read (`output.slice(0, 1000)`,
index.ts:554). -/
def truncEntry (e : CommandHistoryEntry) : CommandHistoryEntry :=
  { e with output := String.mk (e.output.data.take 1000) }

/-- The `get_command_history` handler (index.ts:532-563): disabled notice
when logging is off; otherwise the limit (zod `.min(1).max(maxHistorySize)
.optional().default(10)`, whose default value is itself validated) is
rejected with invalid-params when out of range, and a valid limit returns
the last `limit` entries with their output previews truncated. -/
def getCommandHistoryTool (cfg : ServerConfig) (limit : Option Nat)
    (history : List CommandHistoryEntry) : Except McpError HistoryReply :=
  if !cfg.security.logCommands then .ok (.disabled historyDisabledMsg)
  else
    let n := limit.getD 10
    if n < 1 then
      .error ⟨.InvalidParams,
        "Invalid arguments: Number must be greater than or equal to 1"⟩
    else if n > cfg.security.maxHistorySize then
      .error ⟨.InvalidParams,
        "Invalid arguments: Number must be less than or equal to " ++
          toString cfg.security.maxHistorySize⟩
    else
      .ok (.entries ((sliceLast n history).map truncEntry))

/-! ## Helper lemmas -/

/-- The last `n` elements of a list. -/
def lastN (n : Nat) (l : List α) : List α := l.drop (l.length - n)

theorem sliceLast_eq_lastN {n : Nat} (l : List α) (h : 1 ≤ n) :
    sliceLast n l = lastN n l := by
  unfold sliceLast lastN
  rw [if_neg (by omega)]

theorem lastN_length_le (n : Nat) (l : List α) : (lastN n l).length ≤ n := by
  simp [lastN]
  omega

theorem lastN_of_le {n : Nat} {l : List α} (h : l.length ≤ n) : lastN n l = l := by
  unfold lastN
  have : l.length - n = 0 := by omega
  simp [this]

theorem lastN_append_right {n : Nat} (a r : List α) (h : n ≤ r.length) :
    lastN n (a ++ r) = lastN n r := by
  unfold lastN
  have h1 : (a ++ r).length - n = a.length + (r.length - n) := by
    simp
    omega
  rw [h1, List.drop_append]

theorem lastN_append_left {n : Nat} (a r : List α) (h : r.length < n) :
    lastN n (a ++ r) = lastN (n - r.length) a ++ r := by
  unfold lastN
  have h1 : (a ++ r).length - n = a.length - (n - r.length) := by
    simp
    omega
  rw [h1, List.drop_append_of_le_length (by omega)]

theorem lastN_lastN {k n : Nat} (l : List α) (h : k ≤ n) :
    lastN k (lastN n l) = lastN k l := by
  unfold lastN
  rw [List.drop_drop]
  congr 1
  simp
  omega

theorem lastN_append_lastN (n : Nat) (l r : List α) :
    lastN n (lastN n l ++ r) = lastN n (l ++ r) := by
  by_cases h : n ≤ r.length
  · rw [lastN_append_right _ _ h, lastN_append_right _ _ h]
  · rw [lastN_append_left _ _ (by omega), lastN_append_left _ _ (by omega),
      lastN_lastN _ (by omega)]

theorem pushTrim_eq_lastN {M : Nat} (h : List CommandHistoryEntry)
    (e : CommandHistoryEntry) (hM : 1 ≤ M) :
    pushTrim M h e = lastN M (h ++ [e]) := by
  unfold pushTrim
  by_cases hc : (h ++ [e]).length > M
  · simp only [hc, if_true]
    exact sliceLast_eq_lastN _ hM
  · simp only [hc, if_false]
    exact (lastN_of_le (by omega)).symm

/-- Normal form of `validateCommand`: the four checks in their fixed
short-circuit order. -/
theorem validateCommand_eq (cfg : ServerConfig) (shell : ShellName) (command : String) :
    validateCommand cfg shell command =
      if cfg.security.enableInjectionProtection &&
          shellOperatorViolation command (cfg.shells shell) then
        .error ⟨.InvalidRequest, operatorErrMsg⟩
      else if isCommandBlocked (parseCommand command).command
          cfg.security.blockedCommands then
        .error ⟨.InvalidRequest, blockedCmdMsg (parseCommand command).command⟩
      else if isArgumentBlocked (parseCommand command).args
          cfg.security.blockedArguments then
        .error ⟨.InvalidRequest, blockedArgMsg⟩
      else if command.length > cfg.security.maxCommandLength then
        .error ⟨.InvalidRequest, lengthErrMsg cfg.security.maxCommandLength⟩
      else .ok () := by
  unfold validateCommand
  by_cases h1 : cfg.security.enableInjectionProtection <;>
    by_cases h2 : shellOperatorViolation command (cfg.shells shell) <;>
      by_cases h3 : isCommandBlocked (parseCommand command).command
        cfg.security.blockedCommands <;>
        by_cases h4 : isArgumentBlocked (parseCommand command).args
          cfg.security.blockedArguments <;>
          by_cases h5 : command.length > cfg.security.maxCommandLength <;>
            simp [h1, h2, h3, h4, h5, bind, Except.bind, pure, Except.pure, throw,
              throwThe, MonadExceptOf.throw]

/-- Every error of `validateCommand` carries the invalid-request code. -/
theorem validateCommand_error_code {cfg : ServerConfig} {shell : ShellName}
    {command : String} {e : McpError}
    (h : validateCommand cfg shell command = .error e) : e.code = .InvalidRequest := by
  rw [validateCommand_eq] at h
  repeat' split at h
  all_goals cases h
  all_goals rfl

theorem runEvents_append (ctx : RunCtx) (st : RunState) (a b : List PEvent) :
    runEvents ctx st (a ++ b) = runEvents ctx (runEvents ctx st a) b :=
  List.foldl_append _ _ a b

/-- The data handlers leave settlement, timer bookkeeping and the history
untouched. -/
theorem stdoutStep_ctl (ctx : RunCtx) (st : RunState) (c : String) :
    (stdoutStep ctx st c).settled = st.settled ∧
    (stdoutStep ctx st c).timeoutCleared = st.timeoutCleared ∧
    (stdoutStep ctx st c).timerFired = st.timerFired ∧
    (stdoutStep ctx st c).history = st.history := by
  unfold stdoutStep
  refine ⟨?_, ?_, ?_, ?_⟩ <;> (repeat' split) <;> rfl

theorem stderrStep_ctl (ctx : RunCtx) (st : RunState) (c : String) :
    (stderrStep ctx st c).settled = st.settled ∧
    (stderrStep ctx st c).timeoutCleared = st.timeoutCleared ∧
    (stderrStep ctx st c).timerFired = st.timerFired ∧
    (stderrStep ctx st c).history = st.history := by
  unfold stderrStep
  refine ⟨?_, ?_, ?_, ?_⟩ <;> (repeat' split) <;> rfl

/-- Settlement is write-once: once some settlement is recorded, no event
changes it. -/
theorem pstep_settled_some (ctx : RunCtx) (st : RunState) (e : PEvent)
    {s : Settled} (h : st.settled = some s) : (pstep ctx st e).settled = some s := by
  cases e with
  | stdoutData c =>
      show (stdoutStep ctx st c).settled = some s
      rw [(stdoutStep_ctl ctx st c).1]; exact h
  | stderrData c =>
      show (stderrStep ctx st c).settled = some s
      rw [(stderrStep_ctl ctx st c).1]; exact h
  | closed code =>
      show (closeStep ctx st code).settled = some s
      simp [closeStep, h]
  | errored m =>
      show (errorStep ctx st m).settled = some s
      simp [errorStep, h]
  | timeoutFired =>
      show (timeoutStep ctx st).settled = some s
      unfold timeoutStep
      split
      · exact h
      · simp [h]

theorem runEvents_settled_some (ctx : RunCtx) (es : List PEvent) :
    ∀ st : RunState, ∀ s : Settled, st.settled = some s →
      (runEvents ctx st es).settled = some s := by
  induction es with
  | nil => intro st s h; exact h
  | cons e es ih =>
      intro st s h
      exact ih (pstep ctx st e) s (pstep_settled_some ctx st e h)

/-- Is an event a pure data event? -/
def isDataEvent : PEvent → Bool
  | .stdoutData _ => true
  | .stderrData _ => true
  | _ => false

/-- Does a list of events consist of data events only? -/
def dataOnly (es : List PEvent) : Bool := es.all isDataEvent

/-- A run over data events only does not settle, does not touch the timer
and does not touch the history. -/
theorem runEvents_dataOnly (ctx : RunCtx) (es : List PEvent)
    (h : dataOnly es = true) :
    ∀ st : RunState,
      (runEvents ctx st es).settled = st.settled ∧
      (runEvents ctx st es).timeoutCleared = st.timeoutCleared ∧
      (runEvents ctx st es).timerFired = st.timerFired ∧
      (runEvents ctx st es).history = st.history := by
  induction es with
  | nil => intro st; exact ⟨rfl, rfl, rfl, rfl⟩
  | cons e es ih =>
      intro st
      have hall : isDataEvent e = true ∧ dataOnly es = true := by
        simpa [dataOnly, List.all_cons] using h
      have hstep : (pstep ctx st e).settled = st.settled ∧
          (pstep ctx st e).timeoutCleared = st.timeoutCleared ∧
          (pstep ctx st e).timerFired = st.timerFired ∧
          (pstep ctx st e).history = st.history := by
        cases e with
        | stdoutData c => exact stdoutStep_ctl ctx st c
        | stderrData c => exact stderrStep_ctl ctx st c
        | closed code => simp [isDataEvent] at hall
        | errored m => simp [isDataEvent] at hall
        | timeoutFired => simp [isDataEvent] at hall
      have ihr := ih hall.2 (pstep ctx st e)
      exact ⟨ihr.1.trans hstep.1, ihr.2.1.trans hstep.2.1,
        ihr.2.2.1.trans hstep.2.2.1, ihr.2.2.2.trans hstep.2.2.2⟩

/-- One event step preserves the shared output budget and the stderr
capture bound. -/
theorem pstep_stream_bound (ctx : RunCtx) (st : RunState) (e : PEvent)
    (h1 : st.outputSize ≤ ctx.cfg.security.maxOutputSize)
    (h2 : st.error.length ≤ st.outputSize +
      (if st.truncated then stderrTruncMarker.length else 0)) :
    (pstep ctx st e).outputSize ≤ ctx.cfg.security.maxOutputSize ∧
    (pstep ctx st e).error.length ≤ (pstep ctx st e).outputSize +
      (if (pstep ctx st e).truncated then stderrTruncMarker.length else 0) := by
  cases e <;>
    simp only [pstep, stdoutStep, stderrStep, closeStep, errorStep, timeoutStep] <;>
    repeat' split
  all_goals simp_all [String.length_append]
  all_goals omega

theorem runEvents_stream_bound (ctx : RunCtx) (es : List PEvent) :
    ∀ st : RunState,
      st.outputSize ≤ ctx.cfg.security.maxOutputSize →
      st.error.length ≤ st.outputSize +
        (if st.truncated then stderrTruncMarker.length else 0) →
      (runEvents ctx st es).outputSize ≤ ctx.cfg.security.maxOutputSize ∧
      (runEvents ctx st es).error.length ≤ (runEvents ctx st es).outputSize +
        (if (runEvents ctx st es).truncated then stderrTruncMarker.length else 0) := by
  induction es with
  | nil => intro st h1 h2; exact ⟨h1, h2⟩
  | cons e es ih =>
      intro st h1 h2
      have hs := pstep_stream_bound ctx st e h1 h2
      exact ih (pstep ctx st e) hs.1 hs.2

/-- A cleared timer never runs. -/
theorem timeoutStep_of_cleared (ctx : RunCtx) (st : RunState)
    (h : st.timeoutCleared = true) : timeoutStep ctx st = st := by
  unfold timeoutStep
  rw [if_pos]
  rw [h]
  rfl

/-- The history entry appended by a clean close of an execution that
produced no output. -/
def closedEntry (cfg : ServerConfig) (tmpdir ts : String)
    (job : String × Option Int) : CommandHistoryEntry :=
  ⟨job.1, closeResultMessage cfg tmpdir "" "" false none job.2, ts,
    job.2.getD (-1), none⟩

/-- A sequence of `execute_command` invocations, each of which spawns and
then closes with the given exit code and no output, threading the history
through. -/
def runClosedSequence (cfg : ServerConfig) (cwd ts fileTs tmpdir : String)
    (jobs : List (String × Option Int))
    (h0 : List CommandHistoryEntry) : List CommandHistoryEntry :=
  jobs.foldl
    (fun h job =>
      (executeCommandTool cfg .cmd job.1 none cwd ts fileTs tmpdir h
        [.closed job.2]).state.history)
    h0

theorem closedExec_history (cfg : ServerConfig) (cwd ts fileTs tmpdir : String)
    (job : String × Option Int) (h : List CommandHistoryEntry)
    (hval : validateCommand cfg .cmd job.1 = .ok ())
    (hwd : cfg.security.restrictWorkingDirectory = false)
    (hlog : cfg.security.logCommands = true) :
    (executeCommandTool cfg .cmd job.1 none cwd ts fileTs tmpdir h
        [.closed job.2]).state.history
      = pushTrim cfg.security.maxHistorySize h (closedEntry cfg tmpdir ts job) := by
  unfold executeCommandTool
  rw [hval]
  simp [workingDirAllowed, hwd, runEvents, pstep, closeStep, initRunState,
    closedEntry, hlog]

/-! ## Concrete configurations used by witnesses and counterexamples -/

/-- A representative cmd shell profile. -/
def cmdShellCfg : ShellConfig :=
  ⟨"C:\\WINDOWS\\system32\\cmd.exe", ["/c"], true, ["&", ";", "|"]⟩

/-- All three profiles mapped to the same shell configuration. -/
def mkShells (sc : ShellConfig) : ShellName → ShellConfig := fun _ => sc

/-- A baseline security configuration: blocklists populated, logging on,
history cap 10, output cap 10 bytes, no spilling, no working-directory
restriction. -/
def baseSec : SecurityConfig :=
  ⟨2048, ["format"], ["--exec"], ["C:\\Users"], false, true, 10, 30, true, 10,
    false, none, 24⟩

/-- The baseline server configuration with one SSH connection `pi`. -/
def baseCfg : ServerConfig :=
  ⟨baseSec, mkShells cmdShellCfg,
    ⟨true, [("pi", ⟨"raspberrypi.local", 22, "pi", "raspberry"⟩)]⟩⟩

/-- Baseline with a history cap of 1. -/
def secM1 : SecurityConfig := { baseSec with maxHistorySize := 1 }

/-- Server configuration with a history cap of 1. -/
def cfgM1 : ServerConfig := { baseCfg with security := secM1 }

/-- Security configuration with output spilling enabled into `/tmp/out`. -/
def sec6 : SecurityConfig :=
  { baseSec with enableOutputFiles := true, outputDirectory := some "/tmp/out" }

/-- Server configuration with output spilling enabled. -/
def cfg6 : ServerConfig := { baseCfg with security := sec6 }

/-- Server configuration with SSH support disabled. -/
def cfgSshOff : ServerConfig := { baseCfg with ssh := ⟨false, []⟩ }

/-- Baseline run context for local executions. -/
def ctxB : RunCtx := ⟨baseCfg, .cmd, "x", "/w", "T", "FT", "/tmp"⟩

/-- Run context over the spilling configuration. -/
def ctx6 : RunCtx := ⟨cfg6, .cmd, "big", "/w", "T", "FT", "/tmp"⟩

/-! ## Claim theorems -/

/-- C1 counterexample: with a blocked command, `ssh_execute` does not raise
an invalid-request error and does have a side effect — the violation is
re-wrapped as an internal error and a history entry is appended. -/
theorem c1_counterexample :
    (sshExecuteTool baseCfg "pi" "format c:" "CT" [] (.runResult "" 0)).result
        = .error ⟨.InternalError, "SSH error: Command is blocked: \"format\""⟩ ∧
    (sshExecuteTool baseCfg "pi" "format c:" "CT" [] (.runResult "" 0)).history.length
        = 1 ∧
    baseCfg.security.logCommands = true := by
  exact ⟨rfl, rfl, rfl⟩

/-- C1 (corrected): a policy-violating command makes `execute_command` fail
closed before any spawn — an invalid-request error, zero spawn calls and an
unchanged history — while `ssh_execute` rejects the same way before the
session pool is touched but re-wraps the violation as an internal error
and, when logging is enabled, appends an error entry to the history. -/
theorem c1_policy_violation_fail_closed
    (cfg : ServerConfig) (shell : ShellName) (command command2 : String)
    (wd : Option String) (cwd ts fileTs tmpdir : String)
    (h0 : List CommandHistoryEntry) (events : List PEvent)
    (id : String) (cc : SSHConnectionConfig) (remote : RemoteBehavior)
    (e e2 : McpError)
    (hv : validateCommand cfg shell command = .error e)
    (hv2 : validateCommand cfg .cmd command2 = .error e2)
    (hssh : cfg.ssh.enabled = true)
    (hconn : lookupConn cfg id = some cc)
    (hlog : cfg.security.logCommands = true) :
    executeCommandTool cfg shell command wd cwd ts fileTs tmpdir h0 events
        = ⟨some e, 0, initRunState h0⟩ ∧
    e.code = .InvalidRequest ∧
    sshExecuteTool cfg id command2 ts h0 remote
        = ⟨.error ⟨.InternalError, "SSH error: " ++ e2.message⟩,
            h0 ++ [⟨command2, "SSH error: " ++ e2.message, ts, -1, some id⟩],
            false⟩ ∧
    e2.code = .InvalidRequest := by
  refine ⟨?_, validateCommand_error_code hv, ?_, validateCommand_error_code hv2⟩
  · unfold executeCommandTool
    rw [hv]
  · unfold sshExecuteTool
    simp [hssh, hconn, hv2, hlog]

/-- C1 witness: the theorem applied at the blocked command `format c:`. -/
theorem c1_witness :
    executeCommandTool baseCfg .cmd "format c:" none "/w" "T" "FT" "/tmp" [] []
        = ⟨some ⟨.InvalidRequest, "Command is blocked: \"format\""⟩, 0,
            initRunState []⟩ ∧
    (⟨.InvalidRequest, "Command is blocked: \"format\""⟩ : McpError).code
        = .InvalidRequest ∧
    sshExecuteTool baseCfg "pi" "format c:" "T" [] (.runResult "" 0)
        = ⟨.error ⟨.InternalError,
              "SSH error: " ++
                (⟨.InvalidRequest, "Command is blocked: \"format\""⟩ : McpError).message⟩,
            [] ++ [⟨"format c:",
              "SSH error: " ++
                (⟨.InvalidRequest, "Command is blocked: \"format\""⟩ : McpError).message,
              "T", -1, some "pi"⟩],
            false⟩ ∧
    (⟨.InvalidRequest, "Command is blocked: \"format\""⟩ : McpError).code
        = .InvalidRequest :=
  c1_policy_violation_fail_closed baseCfg .cmd "format c:" "format c:" none "/w"
    "T" "FT" "/tmp" [] [] "pi" ⟨"raspberrypi.local", 22, "pi", "raspberry"⟩
    (.runResult "" 0)
    ⟨.InvalidRequest, "Command is blocked: \"format\""⟩
    ⟨.InvalidRequest, "Command is blocked: \"format\""⟩
    rfl rfl rfl rfl rfl

/-- C2 counterexample: a 6-byte stderr chunk, well under the 10-byte cap,
is replaced by the truncation marker because a prior 6-byte stdout chunk
already consumed the shared budget — the streams are not bounded
independently. -/
theorem c2_counterexample :
    (runEvents ctxB (initRunState [])
        [.stdoutData "123456", .stderrData "abcdef"]).error = stderrTruncMarker ∧
    "abcdef".length ≤ baseCfg.security.maxOutputSize ∧
    (runEvents ctxB (initRunState [])
        [.stdoutData "123456", .stderrData "abcdef"]).error ≠ "abcdef" := by
  refine ⟨rfl, by decide, by decide⟩

/-- C2 (corrected): stdout and stderr share one byte budget — the combined
accounted size never exceeds the configured cap, and the captured stderr
text is bounded by the cap plus one truncation marker. -/
theorem c2_shared_output_budget (ctx : RunCtx) (h0 : List CommandHistoryEntry)
    (es : List PEvent) :
    (runEvents ctx (initRunState h0) es).outputSize
        ≤ ctx.cfg.security.maxOutputSize ∧
    (runEvents ctx (initRunState h0) es).error.length
        ≤ ctx.cfg.security.maxOutputSize + stderrTruncMarker.length := by
  have h := runEvents_stream_bound ctx es (initRunState h0)
    (Nat.zero_le _) (by simp [initRunState])
  rcases h with ⟨ha, hb⟩
  refine ⟨ha, ?_⟩
  split at hb <;> omega

/-- C3 counterexample: with a history cap of 1 and one prior entry, a
timed-out execution pushes a second entry without trimming, so the history
holds 2 > 1 entries. -/
theorem c3_counterexample :
    ((executeCommandTool cfgM1 .cmd "echo hi" none "/w" "T2" "FT" "/tmp"
        [⟨"prev", "out", "T1", 0, none⟩] [.timeoutFired]).state.history).length = 2 ∧
    cfgM1.security.maxHistorySize = 1 ∧
    cfgM1.security.logCommands = true := by
  exact ⟨rfl, rfl, rfl⟩

/-- C3 (corrected): for executions that complete through the close handler
the cap is maintained — after any sequence of such executions with logging
enabled the history is exactly the most recent `maxHistorySize` entries, in
order, and never exceeds the cap; only the timeout and process-error paths
append without trimming. -/
theorem c3_history_fifo_trim (cfg : ServerConfig) (cwd ts fileTs tmpdir : String)
    (jobs : List (String × Option Int)) (h0 : List CommandHistoryEntry)
    (hM : 1 ≤ cfg.security.maxHistorySize)
    (hlen : h0.length ≤ cfg.security.maxHistorySize)
    (hwd : cfg.security.restrictWorkingDirectory = false)
    (hlog : cfg.security.logCommands = true)
    (hval : ∀ j ∈ jobs, validateCommand cfg .cmd j.1 = .ok ()) :
    runClosedSequence cfg cwd ts fileTs tmpdir jobs h0
        = lastN cfg.security.maxHistorySize
            (h0 ++ jobs.map (closedEntry cfg tmpdir ts)) ∧
    (runClosedSequence cfg cwd ts fileTs tmpdir jobs h0).length
        ≤ cfg.security.maxHistorySize := by
  induction jobs generalizing h0 with
  | nil =>
      refine ⟨?_, ?_⟩
      · simp only [runClosedSequence, List.foldl_nil, List.map_nil, List.append_nil]
        exact (lastN_of_le hlen).symm
      · simpa [runClosedSequence] using hlen
  | cons j js ih =>
      have hstep := closedExec_history cfg cwd ts fileTs tmpdir j h0
        (hval j (by simp)) hwd hlog
      have hrw : runClosedSequence cfg cwd ts fileTs tmpdir (j :: js) h0
          = runClosedSequence cfg cwd ts fileTs tmpdir js
              (pushTrim cfg.security.maxHistorySize h0 (closedEntry cfg tmpdir ts j)) := by
        simp only [runClosedSequence, List.foldl_cons, hstep]
      rw [hrw, pushTrim_eq_lastN _ _ hM]
      have hlen2 : (lastN cfg.security.maxHistorySize
          (h0 ++ [closedEntry cfg tmpdir ts j])).length
          ≤ cfg.security.maxHistorySize := lastN_length_le _ _
      have ihr := ih (lastN cfg.security.maxHistorySize
        (h0 ++ [closedEntry cfg tmpdir ts j])) hlen2
        (fun j2 hj2 => hval j2 (by simp [hj2]))
      refine ⟨?_, ihr.2⟩
      rw [ihr.1, lastN_append_lastN, List.append_assoc]
      simp

/-- C3 witness: two clean executions at cap 10 keep the trimmed history. -/
theorem c3_witness :
    runClosedSequence baseCfg "/w" "T" "FT" "/tmp"
        [("echo hi", some 0), ("echo hi", some 1)] []
        = lastN baseCfg.security.maxHistorySize
            ([] ++ [("echo hi", some 0), ("echo hi", some 1)].map
              (closedEntry baseCfg "/tmp" "T")) ∧
    (runClosedSequence baseCfg "/w" "T" "FT" "/tmp"
        [("echo hi", some 0), ("echo hi", some 1)] []).length
        ≤ baseCfg.security.maxHistorySize :=
  c3_history_fifo_trim baseCfg "/w" "T" "FT" "/tmp"
    [("echo hi", some 0), ("echo hi", some 1)] []
    (by decide) (by decide) rfl rfl (by decide)

/-- C4 (confirmed): for a run whose prefix is pure data events, if the
timeout fires first the invocation settles on the timeout rejection and
keeps it whatever arrives later; if the close event comes first the
invocation settles on the close resolution, and a timer firing after the
close is a complete no-op (the close cleared the timer). -/
theorem c4_timeout_close_race (ctx : RunCtx) (h0 : List CommandHistoryEntry)
    (pre post : List PEvent) (c : Option Int)
    (hpre : dataOnly pre = true) :
    (runEvents ctx (initRunState h0) (pre ++ .timeoutFired :: post)).settled
        = some (.rejected ⟨.InternalError, timeoutMsg ctx.cfg⟩) ∧
    (runEvents ctx (initRunState h0) (pre ++ .closed c :: post)).settled
        = some (.resolved
            (closeResultMessage ctx.cfg ctx.tmpdir
              (runEvents ctx (initRunState h0) pre).output
              (runEvents ctx (initRunState h0) pre).error
              (runEvents ctx (initRunState h0) pre).truncated
              (runEvents ctx (initRunState h0) pre).outputFilePath c)
            (if c = some 0 then false else true) (c.getD (-1))) ∧
    runEvents ctx (initRunState h0) (pre ++ [.closed c, .timeoutFired])
        = runEvents ctx (initRunState h0) (pre ++ [.closed c]) := by
  have hd := runEvents_dataOnly ctx pre hpre (initRunState h0)
  have hset : (runEvents ctx (initRunState h0) pre).settled = none := hd.1
  have hclr : (runEvents ctx (initRunState h0) pre).timeoutCleared = false := hd.2.1
  have hfired : (runEvents ctx (initRunState h0) pre).timerFired = false := hd.2.2.1
  refine ⟨?_, ?_, ?_⟩
  · rw [runEvents_append]
    have ht : (timeoutStep ctx (runEvents ctx (initRunState h0) pre)).settled
        = some (.rejected ⟨.InternalError, timeoutMsg ctx.cfg⟩) := by
      unfold timeoutStep
      rw [if_neg (by rw [hclr, hfired]; simp)]
      simp [hset]
    exact runEvents_settled_some ctx post _ _ ht
  · rw [runEvents_append]
    have hc : (closeStep ctx (runEvents ctx (initRunState h0) pre) c).settled
        = some (.resolved
            (closeResultMessage ctx.cfg ctx.tmpdir
              (runEvents ctx (initRunState h0) pre).output
              (runEvents ctx (initRunState h0) pre).error
              (runEvents ctx (initRunState h0) pre).truncated
              (runEvents ctx (initRunState h0) pre).outputFilePath c)
            (if c = some 0 then false else true) (c.getD (-1))) := by
      unfold closeStep
      simp [hset]
    exact runEvents_settled_some ctx post _ _ hc
  · rw [runEvents_append, runEvents_append]
    show runEvents ctx _ [.closed c, .timeoutFired] = runEvents ctx _ [.closed c]
    simp only [runEvents, List.foldl_cons, List.foldl_nil]
    show timeoutStep ctx (closeStep ctx _ c) = closeStep ctx _ c
    exact timeoutStep_of_cleared ctx _ rfl

/-- C4 witness: the race theorem at a concrete run with one stdout chunk. -/
theorem c4_witness :
    (runEvents ctxB (initRunState []) ([.stdoutData "a"] ++ .timeoutFired :: [])).settled
        = some (.rejected ⟨.InternalError, timeoutMsg ctxB.cfg⟩) ∧
    (runEvents ctxB (initRunState []) ([.stdoutData "a"] ++ .closed (some 0) :: [])).settled
        = some (.resolved
            (closeResultMessage ctxB.cfg ctxB.tmpdir
              (runEvents ctxB (initRunState []) [.stdoutData "a"]).output
              (runEvents ctxB (initRunState []) [.stdoutData "a"]).error
              (runEvents ctxB (initRunState []) [.stdoutData "a"]).truncated
              (runEvents ctxB (initRunState []) [.stdoutData "a"]).outputFilePath
              (some 0))
            (if (some 0 : Option Int) = some 0 then false else true)
            ((some 0 : Option Int).getD (-1))) ∧
    runEvents ctxB (initRunState []) ([.stdoutData "a"] ++ [.closed (some 0), .timeoutFired])
        = runEvents ctxB (initRunState []) ([.stdoutData "a"] ++ [.closed (some 0)]) :=
  c4_timeout_close_race ctxB [] [.stdoutData "a"] [] (some 0) rfl

/-- C5 counterexample: with logging enabled, a limit of 0 is not clamped to
1 — the call is rejected with an invalid-params error and returns no
entries. -/
theorem c5_counterexample :
    getCommandHistoryTool baseCfg (some 0) [⟨"c", "o", "t", 0, none⟩]
        = .error ⟨.InvalidParams,
            "Invalid arguments: Number must be greater than or equal to 1"⟩ ∧
    baseCfg.security.logCommands = true := by
  exact ⟨rfl, rfl⟩

/-- C5 (corrected): `get_command_history` validates the limit (default 10
when absent) against `[1, maxHistorySize]` and rejects out-of-range values
with invalid-params rather than clamping; a valid limit returns the last
`limit` entries, most recent last, each preview truncated to 1000
characters; with logging disabled a disabled-notice is returned. -/
theorem c5_history_read (cfg : ServerConfig) (hist : List CommandHistoryEntry)
    (n : Nat) :
    (cfg.security.logCommands = false →
        getCommandHistoryTool cfg (some n) hist = .ok (.disabled historyDisabledMsg)) ∧
    (cfg.security.logCommands = true → (n < 1 ∨ cfg.security.maxHistorySize < n) →
        ∃ m, getCommandHistoryTool cfg (some n) hist
          = .error ⟨.InvalidParams, m⟩) ∧
    (cfg.security.logCommands = true → 1 ≤ n → n ≤ cfg.security.maxHistorySize →
        getCommandHistoryTool cfg (some n) hist
          = .ok (.entries ((lastN n hist).map truncEntry))) ∧
    getCommandHistoryTool cfg none hist = getCommandHistoryTool cfg (some 10) hist := by
  refine ⟨?_, ?_, ?_, rfl⟩
  · intro h
    simp [getCommandHistoryTool, h]
  · intro hl hr
    unfold getCommandHistoryTool
    simp only [hl, Bool.not_true, Bool.false_eq_true, if_false, Option.getD_some]
    rcases hr with h1 | h2
    · rw [if_pos h1]
      exact ⟨_, rfl⟩
    · rw [if_neg (by omega), if_pos (by omega)]
      exact ⟨_, rfl⟩
  · intro hl hge hle
    unfold getCommandHistoryTool
    simp only [hl, Bool.not_true, Bool.false_eq_true, if_false, Option.getD_some]
    rw [if_neg (by omega), if_neg (by omega), sliceLast_eq_lastN _ hge]

/-- C5 witness: a valid limit of 2 returns the last two truncated entries. -/
theorem c5_witness :
    getCommandHistoryTool baseCfg (some 2)
        [⟨"a", "oa", "t1", 0, none⟩, ⟨"b", "ob", "t2", 0, none⟩, ⟨"c", "oc", "t3", 1, none⟩]
        = .ok (.entries ((lastN 2
            [⟨"a", "oa", "t1", 0, none⟩, ⟨"b", "ob", "t2", 0, none⟩,
              ⟨"c", "oc", "t3", 1, none⟩]).map truncEntry)) :=
  (c5_history_read baseCfg
      [⟨"a", "oa", "t1", 0, none⟩, ⟨"b", "ob", "t2", 0, none⟩, ⟨"c", "oc", "t3", 1, none⟩]
      2).2.2.1 rfl (by decide) (by decide)

/-- C6 (code bug evaluated): with spilling enabled into `/tmp/out` and an
11-byte chunk overflowing the 10-byte cap, a later 2-byte chunk that fits
the stale shared budget is appended to the in-memory truncation notice
instead of the spill file, so the file does not hold the full uncapped
output. -/
theorem c6_spill_file_misses_chunk :
    (runEvents ctx6 (initRunState [])
        [.stdoutData "0123456789A", .stdoutData "xy"]).fileContent = "0123456789A" ∧
    (runEvents ctx6 (initRunState [])
        [.stdoutData "0123456789A", .stdoutData "xy"]).output
      = spillNoticeHead cfg6 ++ "Full output saved to: /tmp/out/output-FT.txt\n" ++ "xy" ∧
    (runEvents ctx6 (initRunState [])
        [.stdoutData "0123456789A", .stdoutData "xy"]).fileContent
      ≠ "0123456789A" ++ "xy" ∧
    cfg6.security.enableOutputFiles = true := by
  refine ⟨rfl, rfl, by decide, rfl⟩

/-- C7 (confirmed): validation applies its checks in the fixed short-circuit
order operator, blocked executable, blocked argument, length; the earliest
failing check determines the rejection; the blocked-executable message
names the display name derived from the executable token and the
blocked-argument message is a fixed text revealing no pattern. -/
theorem c7_validation_order (cfg : ServerConfig) (shell : ShellName) (command : String) :
    validateCommand cfg shell command =
      if cfg.security.enableInjectionProtection &&
          shellOperatorViolation command (cfg.shells shell) then
        .error ⟨.InvalidRequest, operatorErrMsg⟩
      else if isCommandBlocked (parseCommand command).command
          cfg.security.blockedCommands then
        .error ⟨.InvalidRequest,
          "Command is blocked: \"" ++
            extractCommandName (parseCommand command).command ++ "\""⟩
      else if isArgumentBlocked (parseCommand command).args
          cfg.security.blockedArguments then
        .error ⟨.InvalidRequest, blockedArgMsg⟩
      else if command.length > cfg.security.maxCommandLength then
        .error ⟨.InvalidRequest, lengthErrMsg cfg.security.maxCommandLength⟩
      else .ok () :=
  validateCommand_eq cfg shell command

/-- C8 (confirmed): the `ssh_execute` policy gate is exactly
`validateCommand` on the `cmd` shell profile, whatever connection is
targeted — a validation failure leaves the session pool untouched and
surfaces as the wrapped internal error, and a validation pass reaches the
pool. -/
theorem c8_ssh_validates_with_cmd_profile (cfg : ServerConfig)
    (id command ts : String) (h0 : List CommandHistoryEntry)
    (remote : RemoteBehavior) (cc : SSHConnectionConfig)
    (hen : cfg.ssh.enabled = true) (hcc : lookupConn cfg id = some cc) :
    (∀ e : McpError, validateCommand cfg .cmd command = .error e →
        (sshExecuteTool cfg id command ts h0 remote).sessionTouched = false ∧
        (sshExecuteTool cfg id command ts h0 remote).result
          = .error ⟨.InternalError, "SSH error: " ++ e.message⟩) ∧
    (validateCommand cfg .cmd command = .ok () →
        (sshExecuteTool cfg id command ts h0 remote).sessionTouched = true) := by
  constructor
  · intro e he
    constructor <;> simp [sshExecuteTool, hen, hcc, he]
  · intro hok
    cases remote <;> simp [sshExecuteTool, hen, hcc, hok]

/-- C8 witness: the gate applied to a passing command on connection `pi`. -/
theorem c8_witness :
    (sshExecuteTool baseCfg "pi" "echo hi" "T" [] (.runResult "ok" 0)).sessionTouched
      = true :=
  (c8_ssh_validates_with_cmd_profile baseCfg "pi" "echo hi" "T" []
      (.runResult "ok" 0) ⟨"raspberrypi.local", 22, "pi", "raspberry"⟩
      rfl rfl).2 rfl

/-- C9 (confirmed): when the timer fires and the killed process then closes,
an invocation with logging enabled appends two history entries for the same
command — the timeout entry with exit code -1 and a second entry carrying
the close handler's result message — and the settled result stays the
timeout rejection. -/
theorem c9_timeout_then_close_double_append (cfg : ServerConfig)
    (cmd cwd ts fileTs tmpdir : String) (c : Option Int)
    (hlog : cfg.security.logCommands = true)
    (hM : 2 ≤ cfg.security.maxHistorySize)
    (hval : validateCommand cfg .cmd cmd = .ok ())
    (hwd : cfg.security.restrictWorkingDirectory = false) :
    (executeCommandTool cfg .cmd cmd none cwd ts fileTs tmpdir []
        [.timeoutFired, .closed c]).state.history
      = [⟨cmd, timeoutMsg cfg, ts, -1, none⟩,
         ⟨cmd, closeResultMessage cfg tmpdir "" "" false none c, ts,
           c.getD (-1), none⟩] ∧
    (executeCommandTool cfg .cmd cmd none cwd ts fileTs tmpdir []
        [.timeoutFired, .closed c]).state.settled
      = some (.rejected ⟨.InternalError, timeoutMsg cfg⟩) := by
  unfold executeCommandTool
  rw [hval]
  have h2M : ¬ (2 > cfg.security.maxHistorySize) := by omega
  constructor <;>
    simp [workingDirAllowed, hwd, runEvents, pstep, timeoutStep, closeStep,
      initRunState, hlog, pushTrim, sliceLast, h2M]

/-- C9 witness: the double append at the baseline configuration. -/
theorem c9_witness :
    (executeCommandTool baseCfg .cmd "echo hi" none "/w" "T" "FT" "/tmp" []
        [.timeoutFired, .closed (some 0)]).state.history
      = [⟨"echo hi", timeoutMsg baseCfg, "T", -1, none⟩,
         ⟨"echo hi", closeResultMessage baseCfg "/tmp" "" "" false none (some 0),
           "T", ((some 0 : Option Int)).getD (-1), none⟩] ∧
    (executeCommandTool baseCfg .cmd "echo hi" none "/w" "T" "FT" "/tmp" []
        [.timeoutFired, .closed (some 0)]).state.settled
      = some (.rejected ⟨.InternalError, timeoutMsg baseCfg⟩) :=
  c9_timeout_then_close_double_append baseCfg "echo hi" "/w" "T" "FT" "/tmp"
    (some 0) rfl (by decide) rfl rfl

/-- C10 (confirmed): `ssh_disconnect` while SSH support is disabled rejects
with an invalid-request error and never touches the session pool. -/
theorem c10_disconnect_disabled (cfg : ServerConfig) (id : String)
    (h : cfg.ssh.enabled = false) :
    sshDisconnectTool cfg id
      = ⟨.error ⟨.InvalidRequest, "SSH support is disabled in configuration"⟩,
          false⟩ := by
  simp [sshDisconnectTool, h]

/-- C10 witness: the disabled-SSH configuration rejects a disconnect. -/
theorem c10_witness :
    sshDisconnectTool cfgSshOff "pi"
      = ⟨.error ⟨.InvalidRequest, "SSH support is disabled in configuration"⟩,
          false⟩ :=
  c10_disconnect_disabled cfgSshOff "pi" rfl

end WinCli
